import Mathlib

/-!
# Verification of the EV charging station Monte Carlo engine

Shallow embedding of the simulation/optimization core found in
`src/sim/rng.ts`, `src/sim/model.ts`, `src/sim/simYear.ts` and
`src/sim/gridSearch.ts`.

Modelling choices:
* JavaScript numbers are modelled as `ℚ`; the 32-bit wrap-arounds of the
  seed mixing (`>>> 0`, `Math.imul`) are modelled explicitly with `% 2^32`
  on `ℕ`.
* The transcendental samplers of the RNG (`normal01` via Box–Muller uses
  `Math.log`/`Math.cos`, `poisson` compares against `Math.exp(-lambda)`)
  and `Math.pow`/`Math.sqrt` are not exactly representable over `ℚ`.
  They are abstracted: an `RNGModel R` supplies the three draw operations
  (`uniform`, `normal`, `poisson`) used by `simulateYear`, and `powQ`
  (for `Math.pow`) and `sqrtQ` (for `Math.sqrt`) are function parameters.
  All theorems are proved for every instantiation of these parameters, so
  they hold in particular for the real samplers.
* `Infinity` returned by `findEarliestStallFreeHour` on an empty stall
  array is modelled by `Option ℚ` (`none` compares greater than any
  target, which is exactly how the value is used).
* The `while` loop of `processQueueUntil` is modelled with explicit fuel.
  Each iteration of the source loop that does not exit removes at least
  one car from the queue (the stall attaining the minimum free time is
  free at that time, so either the expiry pass or the assignment pass
  consumes a queued car), hence `queue.length + 1` units of fuel, passed
  at every call site, are enough fuel for the loop to reach its exit
  condition just as the source loop does.
-/

/-- JS `Math.round` / `Math.floor(x + 0.5)` (round half towards +∞). -/
def jsRound (x : ℚ) : ℤ := ⌊x + 1/2⌋

/-- `clamp` from `src/sim/rng.ts`: `Math.max(lo, Math.min(hi, x))`. -/
def clamp (x lo hi : ℚ) : ℚ := max lo (min hi x)

/-- `mean` from `src/sim/rng.ts`: 0 on the empty list, else sum/length. -/
def mean (arr : List ℚ) : ℚ :=
  if arr.length = 0 then 0 else arr.sum / arr.length

/-- Insert a value into an ascending list (helper for `sortAsc`). -/
def insertSorted (x : ℚ) : List ℚ → List ℚ
  | [] => [x]
  | y :: ys => if x ≤ y then x :: y :: ys else y :: insertSorted x ys

/-- Ascending sort of rationals, modelling `[...arr].sort((a, b) => a - b)`.
Both produce the unique nondecreasing list with the same multiset of
elements, so the embedding agrees with the source. -/
def sortAsc : List ℚ → List ℚ
  | [] => []
  | x :: xs => insertSorted x (sortAsc xs)

/-- `percentile` from `src/sim/rng.ts`: linear interpolation between order
statistics of the sorted sample; 0 on the empty list.  Out-of-range
(negative) indices, which give `undefined`/NaN in JS, are clipped by
`Int.toNat`/`getD`; the claims only concern `0 ≤ p ≤ 1` where all
accesses are in bounds. -/
def percentile (arr : List ℚ) (p : ℚ) : ℚ :=
  if arr.length = 0 then 0
  else
    let sorted := sortAsc arr
    let idx := ((sorted.length : ℚ) - 1) * p
    let lo := ⌊idx⌋
    let hi := ⌈idx⌉
    if lo = hi then sorted.getD lo.toNat 0
    else
      let w := idx - lo
      sorted.getD lo.toNat 0 * (1 - w) + sorted.getD hi.toNat 0 * w

/-- `StationParams` from `src/sim/types.ts` (the constant-elasticity
variant of `src/src/sim/model.ts`, which is the one `gridSearch` uses).
`openHours` is a whole number of operating hours per day (the simulator
iterates `for (let h = 0; h < HOURS_PER_DAY; h++)`). -/
structure StationParams where
  powerKw : ℚ
  qMax : ℚ
  openHours : ℕ
  gridCostPerKwh : ℚ
  fixedCostPerStallPerYear : ℚ
  fixedCostPerYear : ℚ
  baseArrivalsPerHourByMonth : List ℚ
  avgTempCByMonth : List ℚ
  tempSensitivity : ℚ
  refTempC : ℚ
  pRef : ℚ
  priceElasticity : ℚ
  energyKwhMean : ℚ
  energyKwhStd : ℚ
  energyKwhMin : ℚ
  energyKwhMax : ℚ
  waitTolMeanMin : ℚ
  waitTolStdMin : ℚ
  waitTolMin : ℚ
  waitTolMax : ℚ
deriving DecidableEq

/-- `NGrid` from `src/sim/types.ts`. -/
structure NGrid where
  nMin : ℕ
  nMax : ℕ
deriving DecidableEq

/-- `PriceGrid` from `src/sim/types.ts`. -/
structure PriceGridCfg where
  pMin : ℚ
  pMax : ℚ
  pStep : ℚ
deriving DecidableEq

/-- `GridSearchConfig` from `src/sim/types.ts`; `undefined` thresholds are
`none`. -/
structure GridSearchConfig where
  nGrid : NGrid
  pGrid : PriceGridCfg
  mcRuns : ℕ
  seed : ℕ
  maxDropRate : Option ℚ
  maxP95WaitMin : Option ℚ
deriving DecidableEq

/-- `SimRunKPIs` from `src/sim/types.ts`.  All fields are numbers in the
source; the counters are rationals here as well because `scaleKpi`
multiplies them by `1/mcRuns`. -/
structure SimRunKPIs where
  revenue : ℚ
  energySoldKwh : ℚ
  energyCost : ℚ
  fixedCost : ℚ
  profit : ℚ
  arrivals : ℚ
  served : ℚ
  droppedQueueFull : ℚ
  droppedWaitTol : ℚ
  avgWaitMin : ℚ
  p95WaitMin : ℚ
  utilization : ℚ
deriving DecidableEq

/-- `GridPointResult` from `src/sim/types.ts`. -/
structure GridPointResult where
  N : ℕ
  p : ℚ
  mean : SimRunKPIs
  stderrProfit : ℚ
  stderrDropRate : ℚ
  dropRate : ℚ
deriving DecidableEq

/-- A queued car, from `src/sim/simYear.ts`. -/
structure QueuedCar where
  arrivalHour : ℚ
  waitTolMin : ℚ
  energyKwh : ℚ
deriving DecidableEq

/-- The mutable state of `simulateYear`: the stall free-times, the FIFO
queue, and all statistics accumulators, plus the RNG state. -/
structure YearState (R : Type) where
  stalls : List ℚ
  queue : List QueuedCar
  revenue : ℚ
  energySoldKwh : ℚ
  arrivals : ℕ
  served : ℕ
  droppedQueueFull : ℕ
  droppedWaitTol : ℕ
  waitTimesMin : List ℚ
  totalBusyHours : ℚ
  rng : R

/-- Abstract interface of the stateful draws that `simulateYear` performs
on its `RNG` argument (`src/sim/rng.ts`): `uniform`, `normal(mean, std)`
and `poisson(lambda)`.  The concrete Mulberry32-based sampler is one
instantiation. -/
structure RNGModel (R : Type) where
  uniform : R → ℚ × R
  normal : ℚ → ℚ → R → ℚ × R
  poisson : ℚ → R → ℕ × R

/-- `demandFactorFromPrice` from `src/src/sim/model.ts`:
`Math.pow(p / pRef, -priceElasticity)`, with `Math.pow` abstracted as
`powQ`. -/
def demandFactorFromPrice (powQ : ℚ → ℚ → ℚ) (p : ℚ) (params : StationParams) : ℚ :=
  powQ (p / params.pRef) (-params.priceElasticity)

/-- `demandFactorFromTemp` from `src/src/sim/model.ts`. -/
def demandFactorFromTemp (month : ℕ) (params : StationParams) : ℚ :=
  clamp (1 + params.tempSensitivity * (params.refTempC - params.avgTempCByMonth.getD month 0))
    (1/2) (9/5)

/-- `arrivalsRatePerHour` from `src/src/sim/model.ts`. -/
def arrivalsRatePerHour (powQ : ℚ → ℚ → ℚ) (month : ℕ) (p : ℚ) (params : StationParams) : ℚ :=
  params.baseArrivalsPerHourByMonth.getD month 0 *
    demandFactorFromPrice powQ p params * demandFactorFromTemp month params

/-- `serviceTimeHoursFromEnergy` from `src/src/sim/model.ts`:
`energyKwh / Math.max(1e-6, powerKw)`. -/
def serviceTimeHoursFromEnergy (energyKwh : ℚ) (params : StationParams) : ℚ :=
  energyKwh / max (1/1000000) params.powerKw

/-- `sampleEnergyKwh` from `src/src/sim/model.ts`: winter-boosted normal
draw, clamped to `[energyKwhMin, energyKwhMax]`. -/
def sampleEnergyKwh {R : Type} (M : RNGModel R) (params : StationParams) (month : ℕ)
    (r : R) : ℚ × R :=
  let winterBoost : ℚ := if month = 11 ∨ month = 0 ∨ month = 1 then 108/100 else 1
  let norm := M.normal (params.energyKwhMean * winterBoost) params.energyKwhStd r
  (clamp norm.1 params.energyKwhMin params.energyKwhMax, norm.2)

/-- `sampleWaitToleranceMin` from `src/src/sim/model.ts`. -/
def sampleWaitToleranceMin {R : Type} (M : RNGModel R) (params : StationParams)
    (r : R) : ℚ × R :=
  let norm := M.normal params.waitTolMeanMin params.waitTolStdMin r
  (clamp norm.1 params.waitTolMin params.waitTolMax, norm.2)

/-- `buildMonthByDay` from `src/src/sim/simYear.ts`: month index for each
of the 365 days of a non-leap year. -/
def monthByDayGo (monthLens : List ℕ) : ℕ → ℕ → ℕ → List ℕ
  | 0, _, _ => []
  | d + 1, m, dInM =>
    m :: (if dInM + 1 ≥ monthLens.getD m 0
          then monthByDayGo monthLens d (m + 1) 0
          else monthByDayGo monthLens d m (dInM + 1))

/-- The 365-entry day → month table (non-leap year month lengths). -/
def buildMonthByDay : List ℕ :=
  monthByDayGo [31, 28, 31, 30, 31, 30, 31, 31, 30, 31, 30, 31] 365 0 0

/-- The `onServe` closure of `simulateYear`: accrue busy time, energy,
revenue and the served counter. -/
def onServe {R : Type} (p busyHours eKwh : ℚ) (st : YearState R) : YearState R :=
  { st with
    totalBusyHours := st.totalBusyHours + busyHours
    energySoldKwh := st.energySoldKwh + eKwh
    revenue := st.revenue + eKwh * p
    served := st.served + 1 }

/-- Whether a queued car has exceeded its personal wait tolerance at time
`tHour` (the condition of `dropExpiredFromQueue` in `simYear.ts`). -/
def expiredAt (tHour : ℚ) (car : QueuedCar) : Bool :=
  decide ((tHour - car.arrivalHour) * 60 > car.waitTolMin)

/-- `dropExpiredFromQueue` from `src/src/sim/simYear.ts`: remove (in
place, preserving relative order) every queued car whose elapsed wait
exceeds its tolerance; return the number removed and the new queue. -/
def dropExpiredFromQueue (queue : List QueuedCar) (tHour : ℚ) : ℕ × List QueuedCar :=
  (queue.countP (expiredAt tHour), queue.filter (fun c => !expiredAt tHour c))

/-- `findFreeStallIndex` from `src/src/sim/simYear.ts`: index of the first
stall with `busyUntilHour ≤ tHour` (`-1` in the source is `none` here). -/
def findFreeStallIndex (stalls : List ℚ) (tHour : ℚ) : Option ℕ :=
  stalls.findIdx? (fun b => decide (b ≤ tHour))

/-- `findEarliestStallFreeHour` from `src/src/sim/simYear.ts`: minimum
stall free time; `Infinity` on an empty stall array is `none`. -/
def findEarliestStallFreeHour (stalls : List ℚ) : Option ℚ :=
  match stalls with
  | [] => none
  | x :: xs => some (xs.foldl min x)

/-- `assignFromQueueToFreeStalls` from `src/src/sim/simYear.ts`: while a
stall is free at `tHour`, dequeue the front car; if it already exceeded
its tolerance count a wait-tolerance drop, otherwise start its service.
The queue is passed explicitly (the caller passes `st.queue`) and the
`queue` field of the state is written back on every exit path. -/
def assignFromQueueToFreeStalls {R : Type} (params : StationParams) (p tHour : ℚ) :
    List QueuedCar → YearState R → YearState R
  | [], st => { st with queue := [] }
  | car :: rest, st =>
    match findFreeStallIndex st.stalls tHour with
    | none => { st with queue := car :: rest }
    | some i =>
      let waitedMin := (tHour - car.arrivalHour) * 60
      if car.waitTolMin < waitedMin then
        assignFromQueueToFreeStalls params p tHour rest
          { st with droppedWaitTol := st.droppedWaitTol + 1 }
      else
        let serviceH := serviceTimeHoursFromEnergy car.energyKwh params
        assignFromQueueToFreeStalls params p tHour rest
          (onServe p serviceH car.energyKwh
            { st with
              stalls := st.stalls.set i (tHour + serviceH)
              waitTimesMin := st.waitTimesMin ++ [waitedMin] })

/-- The final expiry pass of `processQueueUntil` (source line
`droppedWaitTol += dropExpiredFromQueue(queue, targetHour)`). -/
def expireAtTarget {R : Type} (targetHour : ℚ) (st : YearState R) : YearState R :=
  let dq := dropExpiredFromQueue st.queue targetHour
  { st with queue := dq.2, droppedWaitTol := st.droppedWaitTol + dq.1 }

/-- `processQueueUntil` from `src/src/sim/simYear.ts`, with the `while`
loop driven by fuel (see the header comment; callers pass
`queue.length + 1`, which is sufficient). -/
def processQueueUntil {R : Type} (params : StationParams) (p targetHour : ℚ) :
    ℕ → YearState R → YearState R
  | 0, st => expireAtTarget targetHour st
  | fuel + 1, st =>
    if st.queue.isEmpty then expireAtTarget targetHour st
    else
      match findEarliestStallFreeHour st.stalls with
      | none => expireAtTarget targetHour st
      | some nextFreeHour =>
        if targetHour < nextFreeHour then expireAtTarget targetHour st
        else
          let dq := dropExpiredFromQueue st.queue nextFreeHour
          let st1 : YearState R :=
            { st with queue := dq.2, droppedWaitTol := st.droppedWaitTol + dq.1 }
          if st1.queue.isEmpty then processQueueUntil params p targetHour fuel st1
          else
            processQueueUntil params p targetHour fuel
              (assignFromQueueToFreeStalls params p nextFreeHour st1.queue st1)

/-- The per-arrival block of `simulateYear`: drain the queue up to the
arrival instant, count the arrival, draw energy and wait tolerance, then
serve immediately / enqueue / drop as queue-full. -/
def handleArrival {R : Type} (M : RNGModel R) (params : StationParams) (p : ℚ)
    (month : ℕ) (tArrival : ℚ) (st : YearState R) : YearState R :=
  let st1 := processQueueUntil params p tArrival (st.queue.length + 1) st
  let st2 := { st1 with arrivals := st1.arrivals + 1 }
  let de := sampleEnergyKwh M params month st2.rng
  let dw := sampleWaitToleranceMin M params de.2
  let st3 := { st2 with rng := dw.2 }
  match findFreeStallIndex st3.stalls tArrival with
  | some i =>
    let serviceH := serviceTimeHoursFromEnergy de.1 params
    onServe p serviceH de.1
      { st3 with
        stalls := st3.stalls.set i (tArrival + serviceH)
        waitTimesMin := st3.waitTimesMin ++ [0] }
  | none =>
    if (st3.queue.length : ℚ) < params.qMax then
      { st3 with queue := st3.queue ++ [⟨tArrival, dw.1, de.1⟩] }
    else
      { st3 with droppedQueueFull := st3.droppedQueueFull + 1 }

/-- Draw `k` successive uniforms (the
`Array.from({length: kArrivals}, () => hourStart + rng.uniform())`
draws, before the `hourStart` offset is added). -/
def drawUniforms {R : Type} (M : RNGModel R) : ℕ → R → List ℚ × R
  | 0, r => ([], r)
  | k + 1, r =>
    let u := M.uniform r
    let rest := drawUniforms M k u.2
    (u.1 :: rest.1, rest.2)

/-- One operating hour of `simulateYear`: Poisson arrival count, sorted
random intra-hour arrival times, per-arrival processing, then a final
queue drain through the end of the hour. -/
def simHour {R : Type} (M : RNGModel R) (powQ : ℚ → ℚ → ℚ) (params : StationParams)
    (p : ℚ) (month : ℕ) (hourStart : ℚ) (st : YearState R) : YearState R :=
  let lambda := arrivalsRatePerHour powQ month p params
  let dk := M.poisson lambda st.rng
  let du := drawUniforms M dk.1 dk.2
  let arrivalTimes := sortAsc (du.1.map (fun u => hourStart + u))
  let st := { st with rng := du.2 }
  let st := arrivalTimes.foldl (fun s t => handleArrival M params p month t s) st
  processQueueUntil params p (hourStart + 1) (st.queue.length + 1) st

/-- The initial state of a simulated year: `N` stalls free at time 0,
empty queue, zeroed accumulators. -/
def initState {R : Type} (N : ℕ) (r : R) : YearState R :=
  { stalls := List.replicate N 0
    queue := []
    revenue := 0
    energySoldKwh := 0
    arrivals := 0
    served := 0
    droppedQueueFull := 0
    droppedWaitTol := 0
    waitTimesMin := []
    totalBusyHours := 0
    rng := r }

/-- The main day/hour loop of `simulateYear`, producing the final state. -/
def simulateYearState {R : Type} (M : RNGModel R) (powQ : ℚ → ℚ → ℚ)
    (params : StationParams) (N : ℕ) (p : ℚ) (r : R) : YearState R :=
  (List.range 365).foldl
    (fun st day =>
      let month := buildMonthByDay.getD day 0
      (List.range params.openHours).foldl
        (fun st2 h => simHour M powQ params p month ((day * params.openHours + h : ℕ) : ℚ) st2)
        st)
    (initState N r)

/-- `simulateYear` from `src/src/sim/simYear.ts`: run the year and compute
the KPI record. -/
def simulateYear {R : Type} (M : RNGModel R) (powQ : ℚ → ℚ → ℚ)
    (params : StationParams) (N : ℕ) (p : ℚ) (r : R) : SimRunKPIs :=
  let totalHours : ℚ := 365 * params.openHours
  let f := simulateYearState M powQ params N p r
  let energyCost := f.energySoldKwh * params.gridCostPerKwh
  let fixedCost := params.fixedCostPerYear + params.fixedCostPerStallPerYear * N
  let profit := f.revenue - energyCost - fixedCost
  { revenue := f.revenue
    energySoldKwh := f.energySoldKwh
    energyCost := energyCost
    fixedCost := fixedCost
    profit := profit
    arrivals := f.arrivals
    served := f.served
    droppedQueueFull := f.droppedQueueFull
    droppedWaitTol := f.droppedWaitTol
    avgWaitMin := mean f.waitTimesMin
    p95WaitMin := percentile f.waitTimesMin (95/100)
    utilization := if 0 < N then clamp (f.totalBusyHours / (N * totalHours)) 0 1 else 0 }

/-- `stdErr` from `src/src/sim/gridSearch.ts`: 0 for `n ≤ 1`, else the
sample standard deviation (n-1 denominator) over `sqrt(n)`; `Math.sqrt`
is abstracted as `sqrtQ`. -/
def stdErr (sqrtQ : ℚ → ℚ) (values : List ℚ) : ℚ :=
  let n := values.length
  if n ≤ 1 then 0
  else
    let m := mean values
    let ss := (values.map (fun x => (x - m) * (x - m))).sum
    let variance := ss / (n - 1)
    sqrtQ variance / sqrtQ n

/-- `kpiZero` from `src/src/sim/gridSearch.ts`. -/
def kpiZero : SimRunKPIs :=
  { revenue := 0, energySoldKwh := 0, energyCost := 0, fixedCost := 0, profit := 0
    arrivals := 0, served := 0, droppedQueueFull := 0, droppedWaitTol := 0
    avgWaitMin := 0, p95WaitMin := 0, utilization := 0 }

/-- `addKpi` from `src/src/sim/gridSearch.ts`: componentwise sum. -/
def addKpi (a b : SimRunKPIs) : SimRunKPIs :=
  { revenue := a.revenue + b.revenue
    energySoldKwh := a.energySoldKwh + b.energySoldKwh
    energyCost := a.energyCost + b.energyCost
    fixedCost := a.fixedCost + b.fixedCost
    profit := a.profit + b.profit
    arrivals := a.arrivals + b.arrivals
    served := a.served + b.served
    droppedQueueFull := a.droppedQueueFull + b.droppedQueueFull
    droppedWaitTol := a.droppedWaitTol + b.droppedWaitTol
    avgWaitMin := a.avgWaitMin + b.avgWaitMin
    p95WaitMin := a.p95WaitMin + b.p95WaitMin
    utilization := a.utilization + b.utilization }

/-- `scaleKpi` from `src/src/sim/gridSearch.ts`: componentwise scaling. -/
def scaleKpi (a : SimRunKPIs) (s : ℚ) : SimRunKPIs :=
  { revenue := a.revenue * s
    energySoldKwh := a.energySoldKwh * s
    energyCost := a.energyCost * s
    fixedCost := a.fixedCost * s
    profit := a.profit * s
    arrivals := a.arrivals * s
    served := a.served * s
    droppedQueueFull := a.droppedQueueFull * s
    droppedWaitTol := a.droppedWaitTol * s
    avgWaitMin := a.avgWaitMin * s
    p95WaitMin := a.p95WaitMin * s
    utilization := a.utilization * s }

/-- `priceGrid` from `src/src/sim/gridSearch.ts`: inclusive grid
`pMin, pMin+step, …` with `steps = Math.floor((pMax-pMin)/step + 0.5)`
and each value snapped to millicent precision.  A negative step count
(which makes the source loop run zero times) yields the empty list. -/
def priceGrid (pMin pMax step : ℚ) : List ℚ :=
  let steps : ℤ := ⌊(pMax - pMin) / step + 1/2⌋
  if steps < 0 then []
  else
    (List.range (steps.toNat + 1)).map
      (fun i => (jsRound ((pMin + i * step) * 1000) : ℚ) / 1000)

/-- `validateConfig` from `src/src/sim/gridSearch.ts`, as the predicate
"no check throws".  The `Number.isFinite` checks hold vacuously over
`ℚ`. -/
def validateConfig (config : GridSearchConfig) : Bool :=
  decide (0 < config.pGrid.pStep) &&
  decide (0 < config.pGrid.pMin) && decide (0 < config.pGrid.pMax) &&
  decide (1 ≤ config.nGrid.nMin) && decide (1 ≤ config.nGrid.nMax) &&
  decide (config.nGrid.nMin ≤ config.nGrid.nMax) &&
  decide (config.pGrid.pMin ≤ config.pGrid.pMax) &&
  decide (1 ≤ config.mcRuns) &&
  (match config.maxDropRate with
   | none => true
   | some d => decide (0 ≤ d) && decide (d ≤ 1)) &&
  (match config.maxP95WaitMin with
   | none => true
   | some w => decide (0 ≤ w))

/-- `validateStationParams` from `src/src/sim/gridSearch.ts`, as the
predicate "no check throws". -/
def validateStationParams (params : StationParams) : Bool :=
  decide (0 < params.pRef) &&
  decide (0 < params.priceElasticity) &&
  decide (12 ≤ params.baseArrivalsPerHourByMonth.length) &&
  decide (12 ≤ params.avgTempCByMonth.length) &&
  decide (0 < params.powerKw) &&
  decide (0 ≤ params.qMax) &&
  decide (1 ≤ params.openHours) && decide (params.openHours ≤ 24) &&
  decide (0 ≤ params.gridCostPerKwh) &&
  decide (0 ≤ params.fixedCostPerYear) &&
  decide (0 ≤ params.fixedCostPerStallPerYear) &&
  decide (0 ≤ params.energyKwhStd) &&
  decide (0 ≤ params.energyKwhMin) &&
  decide (0 < params.energyKwhMax) &&
  decide (params.energyKwhMin ≤ params.energyKwhMean) &&
  decide (params.energyKwhMean ≤ params.energyKwhMax) &&
  decide (0 ≤ params.waitTolStdMin) &&
  decide (0 ≤ params.waitTolMin) &&
  decide (0 < params.waitTolMax) &&
  decide (params.waitTolMin ≤ params.waitTolMeanMin) &&
  decide (params.waitTolMeanMin ≤ params.waitTolMax) &&
  (List.range 12).all (fun month =>
    decide (0 < params.baseArrivalsPerHourByMonth.getD month 0))

/-- The xorshift-and-multiply avalanche finisher of `hashSeed`
(`src/src/sim/gridSearch.ts` lines 294–295):
`x = imul(x ^ (x >>> 13), 1274126177); x = (x ^ (x >>> 16)) >>> 0`. -/
def mixFinisher (x : ℕ) : ℕ :=
  let a := ((x ^^^ (x >>> 13)) * 1274126177) % 4294967296
  a ^^^ (a >>> 16)

/-- `hashSeed` from `src/src/sim/gridSearch.ts`: price converted to
mills, then `(seed ^ N*374761393 ^ pm*668265263) >>> 0` followed by the
avalanche finisher.  JS converts every XOR operand to 32 bits, hence the
`% 2^32` on each operand (XOR commutes with truncation, so this equals
truncating afterwards).  `p` is validated strictly positive, so the
rounded mills value is nonnegative and `Int.toNat` is exact. -/
def hashSeed (seed : ℕ) (N : ℕ) (p : ℚ) : ℕ :=
  let pm := (jsRound (p * 1000)).toNat
  let x := (seed % 4294967296) ^^^ ((N * 374761393) % 4294967296) ^^^
    ((pm * 668265263) % 4294967296)
  mixFinisher x

/-- The per-replicate seed `(baseSeed + r * 1013904223) >>> 0` from the
Monte Carlo loop of `gridSearch`. -/
def replicateSeed (baseSeed r : ℕ) : ℕ :=
  (baseSeed + r * 1013904223) % 4294967296

/-- The RNG seed of replicate `r` at grid point `(N, p)`. -/
def seedForReplicate (seed N : ℕ) (p : ℚ) (r : ℕ) : ℕ :=
  replicateSeed (hashSeed seed N p) r

/-- The per-replicate KPI list of one grid point: replicate `r` runs
`simulateYear` on a fresh RNG seeded with `seedForReplicate`.  `mkRNG`
abstracts `new RNG(seed)`. -/
def replicateKpis {R : Type} (M : RNGModel R) (powQ : ℚ → ℚ → ℚ) (mkRNG : ℕ → R)
    (params : StationParams) (mcRuns seed N : ℕ) (p : ℚ) : List SimRunKPIs :=
  (List.range mcRuns).map
    (fun r => simulateYear M powQ params N p (mkRNG (seedForReplicate seed N p r)))

/-- The per-replicate drop rate
`(droppedQueueFull + droppedWaitTol) / arrivals` (0 if no arrivals). -/
def kpiDropRate (k : SimRunKPIs) : ℚ :=
  if 0 < k.arrivals then (k.droppedQueueFull + k.droppedWaitTol) / k.arrivals else 0

/-- The body of the `(N, p)` loop of `gridSearch`: run the replicates,
sum and average the KPIs, and compute the pooled drop rate and standard
errors. -/
def runPoint {R : Type} (M : RNGModel R) (powQ : ℚ → ℚ → ℚ) (sqrtQ : ℚ → ℚ)
    (mkRNG : ℕ → R) (params : StationParams) (mcRuns seed N : ℕ) (p : ℚ) :
    GridPointResult :=
  let kpis := replicateKpis M powQ mkRNG params mcRuns seed N p
  let sum := kpis.foldl addKpi kpiZero
  let profits := kpis.map (fun k => k.profit)
  let dropRates := kpis.map kpiDropRate
  let meanKpi := scaleKpi sum (1 / mcRuns)
  let meanDropped := meanKpi.droppedQueueFull + meanKpi.droppedWaitTol
  let dropRate := if 0 < meanKpi.arrivals then meanDropped / meanKpi.arrivals else 0
  { N := N, p := p, mean := meanKpi
    stderrProfit := stdErr sqrtQ profits
    stderrDropRate := stdErr sqrtQ dropRates
    dropRate := dropRate }

/-- The stall counts enumerated by the outer loop:
`N` from `nMin` to `nMax` inclusive, ascending. -/
def nValues (g : NGrid) : List ℕ :=
  List.range' g.nMin (g.nMax + 1 - g.nMin)

/-- The full results list of `gridSearch`, in scan order (outer loop `N`
ascending, inner loop `p` ascending). -/
def gridSearchResults {R : Type} (M : RNGModel R) (powQ : ℚ → ℚ → ℚ) (sqrtQ : ℚ → ℚ)
    (mkRNG : ℕ → R) (params : StationParams) (config : GridSearchConfig) :
    List GridPointResult :=
  (nValues config.nGrid).flatMap
    (fun N =>
      (priceGrid config.pGrid.pMin config.pGrid.pMax config.pGrid.pStep).map
        (fun p => runPoint M powQ sqrtQ mkRNG params config.mcRuns config.seed N p))

/-- The feasibility check of `gridSearch`: each constraint passes when it
is unset or when the point satisfies it. -/
def feasibleB (config : GridSearchConfig) (pt : GridPointResult) : Bool :=
  (match config.maxDropRate with
   | none => true
   | some d => decide (pt.dropRate ≤ d)) &&
  (match config.maxP95WaitMin with
   | none => true
   | some w => decide (pt.mean.p95WaitMin ≤ w))

/-- The best-point update of `gridSearch`:
`if (okDrop && okWait) { if (!best || point.mean.profit > best.mean.profit) best = point; }`. -/
def updateBest (config : GridSearchConfig) (best : Option GridPointResult)
    (pt : GridPointResult) : Option GridPointResult :=
  if feasibleB config pt then
    match best with
    | none => some pt
    | some b => if b.mean.profit < pt.mean.profit then some pt else some b
  else best

/-- The global best under constraints, folded over the results in scan
order exactly as the source interleaves it with the point loop. -/
def selectBest (config : GridSearchConfig) (results : List GridPointResult) :
    Option GridPointResult :=
  results.foldl (updateBest config) none

/-- `gridSearch` from `src/src/sim/gridSearch.ts`.  Validation failures
and an empty price grid, which throw in the source, are `none`; the
progress callback receives `(completed, total)` pairs and cannot
influence the engine state, so it is an ignored parameter here. -/
def gridSearch {R : Type} (M : RNGModel R) (powQ : ℚ → ℚ → ℚ) (sqrtQ : ℚ → ℚ)
    (mkRNG : ℕ → R) (params : StationParams) (config : GridSearchConfig)
    (onProgress : ℕ → ℕ → Unit) :
    Option (List GridPointResult × Option GridPointResult) :=
  if validateConfig config && validateStationParams params then
    let pValues := priceGrid config.pGrid.pMin config.pGrid.pMax config.pGrid.pStep
    if pValues.isEmpty then none
    else
      let results := gridSearchResults M powQ sqrtQ mkRNG params config
      some (results, selectBest config results)
  else none

/-- What the per-arrival block guarantees: the arrivals counter grows by
one, the sum of served, drop counters and queue length grows by one, and
the wait-time sample grows exactly with the served counter. -/
def ArriveSpec {R : Type} (st st' : YearState R) : Prop :=
  st'.arrivals = st.arrivals + 1 ∧
  st'.served + st'.droppedQueueFull + st'.droppedWaitTol + st'.queue.length
    = st.served + st.droppedQueueFull + st.droppedWaitTol + st.queue.length + 1 ∧
  st'.waitTimesMin.length + st.served = st.waitTimesMin.length + st'.served

/-- The running conservation invariant of the simulated year: every
arrival is accounted for exactly once (served, dropped, or still
queued), and there is exactly one wait-time sample per served car. -/
def Conserved {R : Type} (st : YearState R) : Prop :=
  st.arrivals = st.served + st.droppedQueueFull + st.droppedWaitTol + st.queue.length ∧
  st.waitTimesMin.length = st.served

/-- A degenerate sampler model over a unit state: every draw returns 0
and zero arrivals per hour.  Used to instantiate the abstract model
parameters at concrete inputs. -/
def zeroModel : RNGModel Unit :=
  { uniform := fun _ => (0, ())
    normal := fun _ _ _ => (0, ())
    poisson := fun _ _ => (0, ()) }

/-- Degenerate stand-in for `Math.pow` at concrete inputs. -/
def zeroPow : ℚ → ℚ → ℚ := fun _ _ => 0

/-- Degenerate stand-in for `Math.sqrt` at concrete inputs. -/
def zeroSqrt : ℚ → ℚ := fun _ => 0

/-- Degenerate stand-in for `new RNG(seed)` over the unit state. -/
def zeroMkRNG : ℕ → Unit := fun _ => ()

/-- A `StationParams` record passing `validateStationParams`. -/
def paramsOk : StationParams :=
  { powerKw := 1
    qMax := 0
    openHours := 1
    gridCostPerKwh := 0
    fixedCostPerStallPerYear := 0
    fixedCostPerYear := 0
    baseArrivalsPerHourByMonth := List.replicate 12 1
    avgTempCByMonth := List.replicate 12 0
    tempSensitivity := 0
    refTempC := 0
    pRef := 1
    priceElasticity := 1
    energyKwhMean := 1
    energyKwhStd := 0
    energyKwhMin := 0
    energyKwhMax := 1
    waitTolMeanMin := 1
    waitTolStdMin := 0
    waitTolMin := 0
    waitTolMax := 1 }

/-- A `GridSearchConfig` passing `validateConfig`, with a single grid
point `(N, p) = (1, 1)` and one replicate. -/
def configOk : GridSearchConfig :=
  { nGrid := { nMin := 1, nMax := 1 }
    pGrid := { pMin := 1, pMax := 1, pStep := 1 }
    mcRuns := 1
    seed := 0
    maxDropRate := none
    maxP95WaitMin := none }

/-- The "tighter threshold" ordering of C6: `t` is at least as tight as
`l` when `l` is absent (absent is the loosest) or both are present with
`t`'s bound at most `l`'s. -/
def tighterThan (t l : Option ℚ) : Prop :=
  l = none ∨ ∃ a b, t = some a ∧ l = some b ∧ a ≤ b

/-- A config with 51 stalls at the top of the N grid; every check of
`validateConfig` holds for it. -/
def configN51 : GridSearchConfig :=
  { nGrid := { nMin := 1, nMax := 51 }
    pGrid := { pMin := 1, pMax := 1, pStep := 1 }
    mcRuns := 1
    seed := 0
    maxDropRate := none
    maxP95WaitMin := none }

/-- Station parameters with queue capacity 2001; every check of
`validateStationParams` holds for them. -/
def paramsQ2001 : StationParams :=
  { paramsOk with qMax := 2001 }


/-! ## Bookkeeping invariants of the year simulator -/

/-- What one queue-processing step guarantees: arrivals and queue-full
drops untouched, the number of cars consumed from the supplied queue `q`
accounted for exactly once as served or wait-tolerance-dropped, and the
wait-time sample growing exactly with the served counter. -/
def StepSpec {R : Type} (q : List QueuedCar) (st st' : YearState R) : Prop :=
  st'.arrivals = st.arrivals ∧
  st'.droppedQueueFull = st.droppedQueueFull ∧
  st'.served + st'.droppedWaitTol + st'.queue.length
    = st.served + st.droppedWaitTol + q.length ∧
  st'.waitTimesMin.length + st.served = st.waitTimesMin.length + st'.served

theorem stepSpec_chain {R : Type} {q : List QueuedCar} {st st1 st2 : YearState R}
    (h1 : StepSpec q st st1) (h2 : StepSpec st1.queue st1 st2) : StepSpec q st st2 := by
  obtain ⟨a1, b1, c1, d1⟩ := h1
  obtain ⟨a2, b2, c2, d2⟩ := h2
  exact ⟨a2.trans a1, b2.trans b1, by omega, by omega⟩

theorem countP_add_length_filter_not {α : Type} (p : α → Bool) (l : List α) :
    l.countP p + (l.filter (fun a => !p a)).length = l.length := by
  induction l with
  | nil => rfl
  | cons x xs ih =>
    by_cases h : p x
    · simpa [List.countP_cons, h] using by omega
    · simp only [List.countP_cons, h, List.filter_cons]
      simp [h]
      omega

theorem expireAtTarget_stepSpec {R : Type} (t : ℚ) (st : YearState R) :
    StepSpec st.queue st (expireAtTarget t st) := by
  have h := countP_add_length_filter_not (expiredAt t) st.queue
  refine ⟨rfl, rfl, ?_, ?_⟩
  · simp only [expireAtTarget, dropExpiredFromQueue]
    omega
  · rfl


theorem assign_cons_aux {R : Type} (params : StationParams) (p t : ℚ)
    (car : QueuedCar) (rest : List QueuedCar) {st st2 : YearState R}
    (ha : st2.arrivals = st.arrivals)
    (hb : st2.droppedQueueFull = st.droppedQueueFull)
    (hc : st2.served + st2.droppedWaitTol = st.served + st.droppedWaitTol + 1)
    (hd : st2.waitTimesMin.length + st.served = st.waitTimesMin.length + st2.served)
    (ih : StepSpec rest st2 (assignFromQueueToFreeStalls params p t rest st2)) :
    StepSpec (car :: rest) st (assignFromQueueToFreeStalls params p t rest st2) := by
  obtain ⟨a, b, c, d⟩ := ih
  refine ⟨a.trans ha, b.trans hb, ?_, ?_⟩
  · simp only [List.length_cons]
    omega
  · omega

theorem assign_stepSpec {R : Type} (params : StationParams) (p t : ℚ) :
    ∀ (q : List QueuedCar) (st : YearState R),
      StepSpec q st (assignFromQueueToFreeStalls params p t q st) := by
  intro q
  induction q with
  | nil =>
    intro st
    exact ⟨rfl, rfl, by simp [assignFromQueueToFreeStalls], rfl⟩
  | cons car rest ih =>
    intro st
    rw [assignFromQueueToFreeStalls]
    rcases hfind : findFreeStallIndex st.stalls t with _ | i
    · exact ⟨rfl, rfl, by simp, rfl⟩
    · dsimp only
      by_cases hw : car.waitTolMin < (t - car.arrivalHour) * 60
      · rw [if_pos hw]
        exact assign_cons_aux params p t car rest rfl rfl (by simp; omega) (by simp) (ih _)
      · rw [if_neg hw]
        exact assign_cons_aux params p t car rest rfl rfl (by simp [onServe]; omega)
          (by simp [onServe]; omega) (ih _)

theorem dropExpired_stepSpec {R : Type} (t : ℚ) (st : YearState R) :
    StepSpec st.queue st
      { st with
        queue := (dropExpiredFromQueue st.queue t).2
        droppedWaitTol := st.droppedWaitTol + (dropExpiredFromQueue st.queue t).1 } := by
  have h := countP_add_length_filter_not (expiredAt t) st.queue
  refine ⟨rfl, rfl, ?_, rfl⟩
  simp only [dropExpiredFromQueue]
  omega

theorem processQueueUntil_stepSpec {R : Type} (params : StationParams) (p target : ℚ) :
    ∀ (fuel : ℕ) (st : YearState R),
      StepSpec st.queue st (processQueueUntil params p target fuel st) := by
  intro fuel
  induction fuel with
  | zero => intro st; exact expireAtTarget_stepSpec target st
  | succ fuel ih =>
    intro st
    rw [processQueueUntil]
    by_cases hq : st.queue.isEmpty
    · rw [if_pos hq]; exact expireAtTarget_stepSpec target st
    · rw [if_neg hq]
      rcases hfound : findEarliestStallFreeHour st.stalls with _ | nf
      · exact expireAtTarget_stepSpec target st
      · dsimp only
        by_cases ht : target < nf
        · rw [if_pos ht]; exact expireAtTarget_stepSpec target st
        · rw [if_neg ht]
          have hdrop := dropExpired_stepSpec nf st
          split
          · exact stepSpec_chain hdrop (ih _)
          · exact stepSpec_chain hdrop
              (stepSpec_chain (assign_stepSpec params p nf _ _) (ih _))

theorem handleArrival_arriveSpec {R : Type} (M : RNGModel R) (params : StationParams)
    (p : ℚ) (month : ℕ) (t : ℚ) (st : YearState R) :
    ArriveSpec st (handleArrival M params p month t st) := by
  rw [handleArrival]
  obtain ⟨a1, b1, c1, d1⟩ :=
    processQueueUntil_stepSpec params p t (st.queue.length + 1) st
  dsimp only
  split
  · refine ⟨?_, ?_, ?_⟩ <;> simp [onServe] <;> omega
  · split
    · refine ⟨?_, ?_, ?_⟩ <;> simp <;> omega
    · refine ⟨?_, ?_, ?_⟩ <;> simp <;> omega

theorem balanced_of_stepSpec {R : Type} {st st' : YearState R}
    (hb : Conserved st) (h : StepSpec st.queue st st') : Conserved st' := by
  obtain ⟨h1, h2⟩ := hb
  obtain ⟨a, b, c, d⟩ := h
  exact ⟨by omega, by omega⟩

theorem balanced_of_arriveSpec {R : Type} {st st' : YearState R}
    (hb : Conserved st) (h : ArriveSpec st st') : Conserved st' := by
  obtain ⟨h1, h2⟩ := hb
  obtain ⟨a, b, c⟩ := h
  exact ⟨by omega, by omega⟩

theorem foldl_preserve {α β : Type} (P : α → Prop) (f : α → β → α)
    (hf : ∀ a b, P a → P (f a b)) : ∀ (l : List β) (a : α), P a → P (l.foldl f a) := by
  intro l
  induction l with
  | nil => intro a ha; exact ha
  | cons x xs ih => intro a ha; exact ih _ (hf a x ha)

theorem simHour_balanced {R : Type} (M : RNGModel R) (powQ : ℚ → ℚ → ℚ)
    (params : StationParams) (p : ℚ) (month : ℕ) (hourStart : ℚ) (st : YearState R)
    (hb : Conserved st) : Conserved (simHour M powQ params p month hourStart st) := by
  rw [simHour]
  refine balanced_of_stepSpec ?_ (processQueueUntil_stepSpec params p (hourStart + 1) _ _)
  refine foldl_preserve Conserved _ ?_ _ _ ?_
  · intro a b hpa
    exact balanced_of_arriveSpec hpa (handleArrival_arriveSpec M params p month b a)
  · exact hb

theorem simulateYearState_balanced {R : Type} (M : RNGModel R) (powQ : ℚ → ℚ → ℚ)
    (params : StationParams) (N : ℕ) (p : ℚ) (r : R) :
    Conserved (simulateYearState M powQ params N p r) := by
  rw [simulateYearState]
  refine foldl_preserve Conserved _ ?_ _ _ ?_
  · intro a day ha
    dsimp only
    refine foldl_preserve Conserved _ ?_ _ _ ha
    intro a2 h ha2
    exact simHour_balanced M powQ params p _ _ a2 ha2
  · exact ⟨rfl, rfl⟩

/-! ## Characterization of the best-point fold -/

theorem updateBest_some {config : GridSearchConfig} {b : GridPointResult}
    (pt : GridPointResult) : ∃ c, updateBest config (some b) pt = some c := by
  by_cases h : feasibleB config pt
  · by_cases hlt : b.mean.profit < pt.mean.profit
    · exact ⟨pt, by simp [updateBest, h, hlt]⟩
    · exact ⟨b, by simp [updateBest, h, hlt]⟩
  · exact ⟨b, by simp [updateBest, h]⟩

theorem foldl_updateBest_some (config : GridSearchConfig) :
    ∀ (l : List GridPointResult) (b : GridPointResult),
      ∃ c, l.foldl (updateBest config) (some b) = some c ∧
        b.mean.profit ≤ c.mean.profit ∧
        (∀ pt ∈ l, feasibleB config pt = true → pt.mean.profit ≤ c.mean.profit) ∧
        (c = b ∨
          ∃ l1 l2, l = l1 ++ c :: l2 ∧ feasibleB config c = true ∧
            b.mean.profit < c.mean.profit ∧
            ∀ pt ∈ l1, feasibleB config pt = true → pt.mean.profit < c.mean.profit) := by
  intro l
  induction l with
  | nil => exact fun b => ⟨b, rfl, le_refl _, by simp, Or.inl rfl⟩
  | cons x l ih =>
    intro b
    by_cases hfx : feasibleB config x
    · by_cases hlt : b.mean.profit < x.mean.profit
      · obtain ⟨c, hc, hbc, hall, hcase⟩ := ih x
        refine ⟨c, ?_, ?_, ?_, ?_⟩
        · simpa [List.foldl_cons, updateBest, hfx, hlt] using hc
        · exact le_trans (le_of_lt hlt) hbc
        · intro pt hpt hfpt
          rcases List.mem_cons.1 hpt with h | h
          · exact h ▸ hbc
          · exact hall pt h hfpt
        · rcases hcase with rfl | ⟨l1, l2, hsplit, hfc, hxc, hl1⟩
          · exact Or.inr ⟨[], l, by simp, hfx, hlt, by simp⟩
          · refine Or.inr ⟨x :: l1, l2, by simp [hsplit], hfc, lt_trans hlt hxc, ?_⟩
            intro pt hpt hfpt
            rcases List.mem_cons.1 hpt with h | h
            · exact h ▸ hxc
            · exact hl1 pt h hfpt
      · obtain ⟨c, hc, hbc, hall, hcase⟩ := ih b
        have hxb : x.mean.profit ≤ b.mean.profit := le_of_not_lt hlt
        refine ⟨c, ?_, hbc, ?_, ?_⟩
        · simpa [List.foldl_cons, updateBest, hfx, hlt] using hc
        · intro pt hpt hfpt
          rcases List.mem_cons.1 hpt with h | h
          · exact h ▸ le_trans hxb hbc
          · exact hall pt h hfpt
        · rcases hcase with rfl | ⟨l1, l2, hsplit, hfc, hbcs, hl1⟩
          · exact Or.inl rfl
          · refine Or.inr ⟨x :: l1, l2, by simp [hsplit], hfc, hbcs, ?_⟩
            intro pt hpt hfpt
            rcases List.mem_cons.1 hpt with h | h
            · exact h ▸ lt_of_le_of_lt hxb hbcs
            · exact hl1 pt h hfpt
    · obtain ⟨c, hc, hbc, hall, hcase⟩ := ih b
      refine ⟨c, ?_, hbc, ?_, ?_⟩
      · simpa [List.foldl_cons, updateBest, hfx] using hc
      · intro pt hpt hfpt
        rcases List.mem_cons.1 hpt with h | h
        · exact absurd hfpt (h ▸ hfx)
        · exact hall pt h hfpt
      · rcases hcase with rfl | ⟨l1, l2, hsplit, hfc, hbcs, hl1⟩
        · exact Or.inl rfl
        · refine Or.inr ⟨x :: l1, l2, by simp [hsplit], hfc, hbcs, ?_⟩
          intro pt hpt hfpt
          rcases List.mem_cons.1 hpt with h | h
          · exact absurd hfpt (h ▸ hfx)
          · exact hl1 pt h hfpt

theorem foldl_updateBest_none (config : GridSearchConfig) :
    ∀ (l : List GridPointResult),
      (l.foldl (updateBest config) none = none ∧
        ∀ pt ∈ l, feasibleB config pt = false) ∨
      (∃ c, l.foldl (updateBest config) none = some c ∧ feasibleB config c = true ∧
        (∀ pt ∈ l, feasibleB config pt = true → pt.mean.profit ≤ c.mean.profit) ∧
        ∃ l1 l2, l = l1 ++ c :: l2 ∧
          ∀ pt ∈ l1, feasibleB config pt = true → pt.mean.profit < c.mean.profit) := by
  intro l
  induction l with
  | nil => exact Or.inl ⟨rfl, by simp⟩
  | cons x l ih =>
    by_cases hfx : feasibleB config x
    · obtain ⟨c, hc, hbc, hall, hcase⟩ := foldl_updateBest_some config l x
      refine Or.inr ⟨c, ?_, ?_, ?_, ?_⟩
      · simpa [List.foldl_cons, updateBest, hfx] using hc
      · rcases hcase with rfl | ⟨_, _, _, hfc, _, _⟩
        · exact hfx
        · exact hfc
      · intro pt hpt hfpt
        rcases List.mem_cons.1 hpt with h | h
        · exact h ▸ hbc
        · exact hall pt h hfpt
      · rcases hcase with rfl | ⟨l1, l2, hsplit, _, hxc, hl1⟩
        · exact ⟨[], l, by simp, by simp⟩
        · refine ⟨x :: l1, l2, by simp [hsplit], ?_⟩
          intro pt hpt hfpt
          rcases List.mem_cons.1 hpt with h | h
          · exact h ▸ hxc
          · exact hl1 pt h hfpt
    · rcases ih with ⟨hnone, hall⟩ | ⟨c, hc, hfc, hall, l1, l2, hsplit, hl1⟩
      · refine Or.inl ⟨?_, ?_⟩
        · simpa [List.foldl_cons, updateBest, hfx] using hnone
        · intro pt hpt
          rcases List.mem_cons.1 hpt with h | h
          · exact h ▸ eq_false_of_ne_true hfx
          · exact hall pt h
      · refine Or.inr ⟨c, ?_, hfc, ?_, x :: l1, l2, by simp [hsplit], ?_⟩
        · simpa [List.foldl_cons, updateBest, hfx] using hc
        · intro pt hpt hfpt
          rcases List.mem_cons.1 hpt with h | h
          · exact absurd hfpt (h ▸ hfx)
          · exact hall pt h hfpt
        · intro pt hpt hfpt
          rcases List.mem_cons.1 hpt with h | h
          · exact absurd hfpt (h ▸ hfx)
          · exact hl1 pt h hfpt

/-! ## Claim theorems -/

/-- C1: for every `StationParams` record, `GridSearchConfig` record, and
progress callback, two independent invocations of `gridSearch` with the
same inputs produce identical outputs — the results lists and the best
references are equal — and the output does not depend on the progress
callback.  The embedding is a pure function of its inputs (the engine has
no hidden global state; each replicate constructs its own RNG), so the
two invocations are definitionally the same value, for every
instantiation of the abstracted samplers. -/
theorem gridSearch_deterministic {R : Type} (M : RNGModel R) (powQ : ℚ → ℚ → ℚ)
    (sqrtQ : ℚ → ℚ) (mkRNG : ℕ → R) (params : StationParams)
    (config : GridSearchConfig) (onProgress onProgress2 : ℕ → ℕ → Unit) :
    gridSearch M powQ sqrtQ mkRNG params config onProgress
      = gridSearch M powQ sqrtQ mkRNG params config onProgress2 := rfl

/-- C2: for every valid `StationParams`, every `N ≥ 1`, every price
`p > 0`, and every RNG (every sampler model and state), the KPIs returned
by `simulateYear` satisfy
`served + droppedQueueFull + droppedWaitTol ≤ arrivals` and
`served ≤ arrivals`: each arriving car is counted at most once across the
served and dropped counters (the difference is the cars still queued at
year end). -/
theorem simulateYear_conservation {R : Type} (M : RNGModel R) (powQ : ℚ → ℚ → ℚ)
    (params : StationParams) (N : ℕ) (p : ℚ) (r : R)
    (hv : validateStationParams params = true) (hN : 1 ≤ N) (hp : 0 < p) :
    (simulateYear M powQ params N p r).served +
        (simulateYear M powQ params N p r).droppedQueueFull +
        (simulateYear M powQ params N p r).droppedWaitTol
      ≤ (simulateYear M powQ params N p r).arrivals ∧
    (simulateYear M powQ params N p r).served
      ≤ (simulateYear M powQ params N p r).arrivals := by
  obtain ⟨h1, _⟩ := simulateYearState_balanced M powQ params N p r
  rw [simulateYear]
  dsimp only
  constructor
  · exact_mod_cast Nat.le.intro (by omega :
      (simulateYearState M powQ params N p r).served +
        (simulateYearState M powQ params N p r).droppedQueueFull +
        (simulateYearState M powQ params N p r).droppedWaitTol +
        (simulateYearState M powQ params N p r).queue.length
      = (simulateYearState M powQ params N p r).arrivals)
  · exact_mod_cast Nat.le.intro (by omega :
      (simulateYearState M powQ params N p r).served +
        ((simulateYearState M powQ params N p r).droppedQueueFull +
          (simulateYearState M powQ params N p r).droppedWaitTol +
          (simulateYearState M powQ params N p r).queue.length)
      = (simulateYearState M powQ params N p r).arrivals)

set_option maxRecDepth 100000 in
/-- Witness for C2 at a concrete input: the parameters pass validation
and the conservation inequalities hold for the simulated year. -/
theorem simulateYear_conservation_witness :
    validateStationParams paramsOk = true ∧ 1 ≤ 1 ∧ (0 : ℚ) < 1 ∧
    ((simulateYear zeroModel zeroPow paramsOk 1 1 ()).served +
        (simulateYear zeroModel zeroPow paramsOk 1 1 ()).droppedQueueFull +
        (simulateYear zeroModel zeroPow paramsOk 1 1 ()).droppedWaitTol
      ≤ (simulateYear zeroModel zeroPow paramsOk 1 1 ()).arrivals ∧
      (simulateYear zeroModel zeroPow paramsOk 1 1 ()).served
        ≤ (simulateYear zeroModel zeroPow paramsOk 1 1 ()).arrivals) :=
  ⟨by decide, le_refl 1, by norm_num,
    simulateYear_conservation zeroModel zeroPow paramsOk 1 1 ()
      (by decide) (le_refl 1) (by norm_num)⟩

/-- The wait-time sample has exactly one entry per served car. -/
theorem simulateYearState_waits_length {R : Type} (M : RNGModel R)
    (powQ : ℚ → ℚ → ℚ) (params : StationParams) (N : ℕ) (p : ℚ) (r : R) :
    (simulateYearState M powQ params N p r).waitTimesMin.length
      = (simulateYearState M powQ params N p r).served :=
  (simulateYearState_balanced M powQ params N p r).2

/-- C10: when a simulated year serves no car at all — the wait-time
sample is empty — `simulateYear` returns `avgWaitMin = 0` and
`p95WaitMin = 0` (rather than a NaN or an error), because both `mean` and
`percentile` are defined to return 0 on the empty list. -/
theorem simulateYear_noServed_zeroWaits {R : Type} (M : RNGModel R)
    (powQ : ℚ → ℚ → ℚ) (params : StationParams) (N : ℕ) (p : ℚ) (r : R)
    (h : (simulateYearState M powQ params N p r).waitTimesMin = []) :
    (simulateYear M powQ params N p r).avgWaitMin = 0 ∧
    (simulateYear M powQ params N p r).p95WaitMin = 0 := by
  rw [simulateYear]
  dsimp only
  rw [h]
  exact ⟨rfl, rfl⟩

set_option maxRecDepth 100000 in
/-- Witness for C10 at a concrete input: the degenerate sampler produces
no arrivals, hence an empty wait-time sample, and both wait KPIs are 0. -/
theorem simulateYear_noServed_zeroWaits_witness :
    (simulateYearState zeroModel zeroPow paramsOk 1 1 ()).waitTimesMin = [] ∧
    ((simulateYear zeroModel zeroPow paramsOk 1 1 ()).avgWaitMin = 0 ∧
      (simulateYear zeroModel zeroPow paramsOk 1 1 ()).p95WaitMin = 0) :=
  ⟨by decide, simulateYear_noServed_zeroWaits zeroModel zeroPow paramsOk 1 1 () (by decide)⟩

/-- C4: `gridSearch` selects as best the first-encountered feasible grid
point (in scan order) whose mean profit is not exceeded by any other
feasible point; the update step replaces the current best only when the
new point's mean profit is strictly greater; and when no grid point is
feasible, best is `none`.  The first conjunct ties `gridSearch`'s output
to `gridSearchResults`/`selectBest`; the remaining conjuncts characterize
the selection. -/
theorem gridSearch_best_characterization {R : Type} (M : RNGModel R)
    (powQ : ℚ → ℚ → ℚ) (sqrtQ : ℚ → ℚ) (mkRNG : ℕ → R) (params : StationParams)
    (config : GridSearchConfig) (onProgress : ℕ → ℕ → Unit) :
    (∀ res best,
      gridSearch M powQ sqrtQ mkRNG params config onProgress = some (res, best) →
        res = gridSearchResults M powQ sqrtQ mkRNG params config ∧
        best = selectBest config res) ∧
    (selectBest config (gridSearchResults M powQ sqrtQ mkRNG params config) = none ↔
      ∀ pt ∈ gridSearchResults M powQ sqrtQ mkRNG params config,
        feasibleB config pt = false) ∧
    (∀ c, selectBest config (gridSearchResults M powQ sqrtQ mkRNG params config) = some c →
      feasibleB config c = true ∧
      (∀ pt ∈ gridSearchResults M powQ sqrtQ mkRNG params config,
        feasibleB config pt = true → pt.mean.profit ≤ c.mean.profit) ∧
      ∃ l1 l2, gridSearchResults M powQ sqrtQ mkRNG params config = l1 ++ c :: l2 ∧
        ∀ pt ∈ l1, feasibleB config pt = true → pt.mean.profit < c.mean.profit) ∧
    (∀ b pt, updateBest config (some b) pt = some pt →
      pt = b ∨ (feasibleB config pt = true ∧ b.mean.profit < pt.mean.profit)) := by
  refine ⟨?_, ?_, ?_, ?_⟩
  · intro res best h
    rw [gridSearch] at h
    split at h
    · dsimp only at h
      split at h
      · exact absurd h (by simp)
      · simp only [Option.some.injEq, Prod.mk.injEq] at h
        refine ⟨h.1.symm, ?_⟩
        rw [← h.1, ← h.2]
    · exact absurd h (by simp)
  · rcases foldl_updateBest_none config
        (gridSearchResults M powQ sqrtQ mkRNG params config) with
      ⟨hnone, hall⟩ | ⟨c, hc, hfc, hall, l1, l2, hsplit, hl1⟩
    · rw [selectBest, hnone]
      exact ⟨fun _ => hall, fun _ => rfl⟩
    · rw [selectBest, hc]
      constructor
      · intro hcontra; exact absurd hcontra (by simp)
      · intro h
        have hmem : c ∈ gridSearchResults M powQ sqrtQ mkRNG params config := by
          rw [hsplit]; exact List.mem_append.2 (Or.inr (List.mem_cons_self c l2))
        rw [h c hmem] at hfc
        exact absurd hfc (by simp)
  · intro c hcsel
    rcases foldl_updateBest_none config
        (gridSearchResults M powQ sqrtQ mkRNG params config) with
      ⟨hnone, _⟩ | ⟨c2, hc2, hfc2, hall2, l1, l2, hsplit2, hl12⟩
    · rw [selectBest, hnone] at hcsel; exact absurd hcsel (by simp)
    · rw [selectBest, hc2, Option.some.injEq] at hcsel
      subst hcsel
      exact ⟨hfc2, hall2, l1, l2, hsplit2, hl12⟩
  · intro b pt h
    by_cases hf : feasibleB config pt
    · by_cases hlt : b.mean.profit < pt.mean.profit
      · exact Or.inr ⟨hf, hlt⟩
      · simp only [updateBest, hf, if_true, hlt, if_false, Option.some.injEq] at h
        exact Or.inl h.symm
    · simp only [updateBest, hf] at h
      simp only [Bool.false_eq_true, if_false, Option.some.injEq] at h
      exact Or.inl h.symm

theorem foldl_addKpi_field (f : SimRunKPIs → ℚ)
    (hf : ∀ a b, f (addKpi a b) = f a + f b) :
    ∀ (l : List SimRunKPIs) (z : SimRunKPIs),
      f (l.foldl addKpi z) = f z + (l.map f).sum := by
  intro l
  induction l with
  | nil => intro z; simp
  | cons x xs ih =>
    intro z
    rw [List.foldl_cons, ih, hf]
    simp [add_assoc]

/-- C5: for every grid point, the reported `dropRate` is the pooled drop
count divided by the pooled arrival count — the sums of
`droppedQueueFull + droppedWaitTol` over all replicates divided by the
sum of `arrivals` over all replicates (equivalently the ratio of the
mean KPIs, since both are scaled by `1/mcRuns`) — and 0 when the pooled
arrivals are 0. -/
theorem runPoint_dropRate_pooled {R : Type} (M : RNGModel R) (powQ : ℚ → ℚ → ℚ)
    (sqrtQ : ℚ → ℚ) (mkRNG : ℕ → R) (params : StationParams)
    (mcRuns seed N : ℕ) (p : ℚ) (hmc : 1 ≤ mcRuns) :
    (runPoint M powQ sqrtQ mkRNG params mcRuns seed N p).dropRate =
      (if 0 < ((replicateKpis M powQ mkRNG params mcRuns seed N p).map
            (fun k => k.arrivals)).sum
       then (((replicateKpis M powQ mkRNG params mcRuns seed N p).map
                (fun k => k.droppedQueueFull)).sum +
              ((replicateKpis M powQ mkRNG params mcRuns seed N p).map
                (fun k => k.droppedWaitTol)).sum) /
            ((replicateKpis M powQ mkRNG params mcRuns seed N p).map
              (fun k => k.arrivals)).sum
       else 0) := by
  have hmcQ : (0 : ℚ) < 1 / mcRuns := by
    have : (0 : ℚ) < mcRuns := by exact_mod_cast Nat.lt_of_lt_of_le Nat.zero_lt_one hmc
    positivity
  rw [runPoint]
  dsimp only
  have ha := foldl_addKpi_field (fun k => k.arrivals) (fun _ _ => rfl)
    (replicateKpis M powQ mkRNG params mcRuns seed N p) kpiZero
  have hq := foldl_addKpi_field (fun k => k.droppedQueueFull) (fun _ _ => rfl)
    (replicateKpis M powQ mkRNG params mcRuns seed N p) kpiZero
  have hw := foldl_addKpi_field (fun k => k.droppedWaitTol) (fun _ _ => rfl)
    (replicateKpis M powQ mkRNG params mcRuns seed N p) kpiZero
  rw [show kpiZero.arrivals = 0 from rfl, zero_add] at ha
  rw [show kpiZero.droppedQueueFull = 0 from rfl, zero_add] at hq
  rw [show kpiZero.droppedWaitTol = 0 from rfl, zero_add] at hw
  rw [show ∀ a : SimRunKPIs, ∀ s : ℚ, (scaleKpi a s).arrivals = a.arrivals * s
      from fun _ _ => rfl,
    show ∀ a : SimRunKPIs, ∀ s : ℚ, (scaleKpi a s).droppedQueueFull = a.droppedQueueFull * s
      from fun _ _ => rfl,
    show ∀ a : SimRunKPIs, ∀ s : ℚ, (scaleKpi a s).droppedWaitTol = a.droppedWaitTol * s
      from fun _ _ => rfl,
    ha, hq, hw]
  set A := ((replicateKpis M powQ mkRNG params mcRuns seed N p).map
    (fun k => k.arrivals)).sum with hA
  set Q := ((replicateKpis M powQ mkRNG params mcRuns seed N p).map
    (fun k => k.droppedQueueFull)).sum with hQ
  set W := ((replicateKpis M powQ mkRNG params mcRuns seed N p).map
    (fun k => k.droppedWaitTol)).sum with hW
  by_cases hpos : 0 < A
  · rw [if_pos (mul_pos hpos hmcQ), if_pos hpos, ← add_mul,
      mul_div_mul_right _ _ (ne_of_gt hmcQ)]
  · have hnc : ¬ 0 < A * (1 / (mcRuns : ℚ)) := by
      intro hcontra
      exact hpos (by nlinarith)
    rw [if_neg hnc, if_neg hpos]

/-- Witness for C5 at a concrete input (one replicate, one grid point). -/
theorem runPoint_dropRate_pooled_witness :
    1 ≤ 1 ∧
    (runPoint zeroModel zeroPow zeroSqrt zeroMkRNG paramsOk 1 0 1 1).dropRate =
      (if 0 < ((replicateKpis zeroModel zeroPow zeroMkRNG paramsOk 1 0 1 1).map
            (fun k => k.arrivals)).sum
       then (((replicateKpis zeroModel zeroPow zeroMkRNG paramsOk 1 0 1 1).map
                (fun k => k.droppedQueueFull)).sum +
              ((replicateKpis zeroModel zeroPow zeroMkRNG paramsOk 1 0 1 1).map
                (fun k => k.droppedWaitTol)).sum) /
            ((replicateKpis zeroModel zeroPow zeroMkRNG paramsOk 1 0 1 1).map
              (fun k => k.arrivals)).sum
       else 0) :=
  ⟨le_refl 1,
    runPoint_dropRate_pooled zeroModel zeroPow zeroSqrt zeroMkRNG paramsOk 1 0 1 1 (le_refl 1)⟩

theorem feasibleB_mono (c1 c2 : GridSearchConfig)
    (hd : tighterThan c1.maxDropRate c2.maxDropRate)
    (hw : tighterThan c1.maxP95WaitMin c2.maxP95WaitMin)
    (pt : GridPointResult) (h : feasibleB c1 pt = true) : feasibleB c2 pt = true := by
  rw [feasibleB, Bool.and_eq_true] at h ⊢
  obtain ⟨h1, h2⟩ := h
  constructor
  · rcases hd with hnone | ⟨a, b, ha, hb, hab⟩
    · rw [hnone]
    · rw [hb]
      rw [ha] at h1
      simp only [decide_eq_true_eq] at h1 ⊢
      linarith
  · rcases hw with hnone | ⟨a, b, ha, hb, hab⟩
    · rw [hnone]
    · rw [hb]
      rw [ha] at h2
      simp only [decide_eq_true_eq] at h2 ⊢
      linarith

/-- C6: for two configs identical except that one has tighter (smaller,
with absent the loosest) `maxDropRate` and/or `maxP95WaitMin`
thresholds, every grid point feasible under the tighter config is
feasible under the looser one, the per-point results coincide, and
whenever the tighter config selects a best point the looser config
selects one with at least that mean profit (when the tighter best is
absent the claim holds vacuously — "or best becomes null"). -/
theorem gridSearch_threshold_monotone {R : Type} (M : RNGModel R)
    (powQ : ℚ → ℚ → ℚ) (sqrtQ : ℚ → ℚ) (mkRNG : ℕ → R) (params : StationParams)
    (c1 c2 : GridSearchConfig)
    (hn : c1.nGrid = c2.nGrid) (hp : c1.pGrid = c2.pGrid)
    (hm : c1.mcRuns = c2.mcRuns) (hs : c1.seed = c2.seed)
    (hd : tighterThan c1.maxDropRate c2.maxDropRate)
    (hw : tighterThan c1.maxP95WaitMin c2.maxP95WaitMin) :
    (∀ pt, feasibleB c1 pt = true → feasibleB c2 pt = true) ∧
    gridSearchResults M powQ sqrtQ mkRNG params c1
      = gridSearchResults M powQ sqrtQ mkRNG params c2 ∧
    (∀ b1, selectBest c1 (gridSearchResults M powQ sqrtQ mkRNG params c1) = some b1 →
      ∃ b2, selectBest c2 (gridSearchResults M powQ sqrtQ mkRNG params c2) = some b2 ∧
        b1.mean.profit ≤ b2.mean.profit) := by
  have hres : gridSearchResults M powQ sqrtQ mkRNG params c1
      = gridSearchResults M powQ sqrtQ mkRNG params c2 := by
    rw [gridSearchResults, gridSearchResults, nValues, nValues, hn, hp, hm, hs]
  refine ⟨feasibleB_mono c1 c2 hd hw, hres, ?_⟩
  intro b1 hb1
  rcases foldl_updateBest_none c1 (gridSearchResults M powQ sqrtQ mkRNG params c1) with
    ⟨hnone, _⟩ | ⟨c, hc, hfc, _, l1, l2, hsplit, _⟩
  · rw [selectBest, hnone] at hb1; exact absurd hb1 (by simp)
  · rw [selectBest, hc, Option.some.injEq] at hb1
    subst hb1
    have hmem : c ∈ gridSearchResults M powQ sqrtQ mkRNG params c1 := by
      rw [hsplit]; exact List.mem_append.2 (Or.inr (List.mem_cons_self c l2))
    have hfeas2 : feasibleB c2 c = true := feasibleB_mono c1 c2 hd hw c hfc
    rcases foldl_updateBest_none c2 (gridSearchResults M powQ sqrtQ mkRNG params c2) with
      ⟨_, hall2⟩ | ⟨b2, hb2, _, hall2, _, _, _, _⟩
    · rw [← hres] at hall2
      rw [hall2 c hmem] at hfeas2
      exact absurd hfeas2 (by simp)
    · refine ⟨b2, by rw [selectBest]; exact hb2, ?_⟩
      rw [← hres] at hall2
      exact hall2 c hmem hfeas2

/-- Witness for C6 at a concrete input (both configs equal, thresholds
absent on both sides, which is tighter-or-equal). -/
theorem gridSearch_threshold_monotone_witness :
    configOk.nGrid = configOk.nGrid ∧
    tighterThan configOk.maxDropRate configOk.maxDropRate ∧
    ((∀ pt, feasibleB configOk pt = true → feasibleB configOk pt = true) ∧
      gridSearchResults zeroModel zeroPow zeroSqrt zeroMkRNG paramsOk configOk
        = gridSearchResults zeroModel zeroPow zeroSqrt zeroMkRNG paramsOk configOk ∧
      (∀ b1, selectBest configOk
          (gridSearchResults zeroModel zeroPow zeroSqrt zeroMkRNG paramsOk configOk)
            = some b1 →
        ∃ b2, selectBest configOk
            (gridSearchResults zeroModel zeroPow zeroSqrt zeroMkRNG paramsOk configOk)
              = some b2 ∧
          b1.mean.profit ≤ b2.mean.profit)) :=
  ⟨rfl, Or.inl rfl,
    gridSearch_threshold_monotone zeroModel zeroPow zeroSqrt zeroMkRNG paramsOk
      configOk configOk rfl rfl rfl rfl (Or.inl rfl) (Or.inl rfl)⟩

theorem xor_mod_two_pow (a b n : ℕ) :
    a % 2 ^ n ^^^ b % 2 ^ n = (a ^^^ b) % 2 ^ n := by
  apply Nat.eq_of_testBit_eq
  intro i
  simp only [Nat.testBit_xor, Nat.testBit_mod_two_pow]
  by_cases h : i < n <;> simp [h]

/-- C3: the RNG seed of replicate `r` at grid point `(N, p)` is
`(mix(seed XOR N*374761393 XOR round(p*1000)*668265263) + r*1013904223)`
wrapped to 32 bits — a function of `(seed, N, p, r)` only — and
consequently shrinking `nMax` (removing grid points) leaves the results
of every remaining grid point unchanged: the smaller grid's results list
is a prefix of the larger one's. -/
theorem gridSearch_seed_point_independence {R : Type} (M : RNGModel R)
    (powQ : ℚ → ℚ → ℚ) (sqrtQ : ℚ → ℚ) (mkRNG : ℕ → R) (params : StationParams)
    (c1 c2 : GridSearchConfig)
    (hmin : c2.nGrid.nMin = c1.nGrid.nMin) (hmax : c2.nGrid.nMax ≤ c1.nGrid.nMax)
    (hp : c2.pGrid = c1.pGrid) (hm : c2.mcRuns = c1.mcRuns) (hs : c2.seed = c1.seed) :
    (∀ (seed N : ℕ) (p : ℚ) (r : ℕ),
      seedForReplicate seed N p r =
        (mixFinisher ((seed ^^^ N * 374761393 ^^^ (jsRound (p * 1000)).toNat * 668265263)
            % 4294967296) + r * 1013904223) % 4294967296) ∧
    ∃ rest, gridSearchResults M powQ sqrtQ mkRNG params c1
      = gridSearchResults M powQ sqrtQ mkRNG params c2 ++ rest := by
  constructor
  · intro seed N p r
    rw [seedForReplicate, replicateSeed, hashSeed]
    have h32 : (4294967296 : ℕ) = 2 ^ 32 := by norm_num
    rw [h32, xor_mod_two_pow, xor_mod_two_pow]
  · refine ⟨(List.range' (c1.nGrid.nMin + (c2.nGrid.nMax + 1 - c2.nGrid.nMin))
        ((c1.nGrid.nMax + 1 - c1.nGrid.nMin) - (c2.nGrid.nMax + 1 - c2.nGrid.nMin))).flatMap
      (fun N =>
        (priceGrid c1.pGrid.pMin c1.pGrid.pMax c1.pGrid.pStep).map
          (fun p => runPoint M powQ sqrtQ mkRNG params c1.mcRuns c1.seed N p)), ?_⟩
    rw [gridSearchResults, gridSearchResults, nValues, nValues, hp, hm, hs, hmin,
      ← List.flatMap_append]
    congr 1
    rw [List.range'_append_1]
    congr 1
    omega

/-- Witness for C3 at a concrete input (both configs equal). -/
theorem gridSearch_seed_point_independence_witness :
    configOk.nGrid.nMin = configOk.nGrid.nMin ∧
    configOk.nGrid.nMax ≤ configOk.nGrid.nMax ∧
    ((∀ (seed N : ℕ) (p : ℚ) (r : ℕ),
      seedForReplicate seed N p r =
        (mixFinisher ((seed ^^^ N * 374761393 ^^^ (jsRound (p * 1000)).toNat * 668265263)
            % 4294967296) + r * 1013904223) % 4294967296) ∧
    ∃ rest, gridSearchResults zeroModel zeroPow zeroSqrt zeroMkRNG paramsOk configOk
      = gridSearchResults zeroModel zeroPow zeroSqrt zeroMkRNG paramsOk configOk ++ rest) :=
  ⟨rfl, le_refl _,
    gridSearch_seed_point_independence zeroModel zeroPow zeroSqrt zeroMkRNG paramsOk
      configOk configOk rfl (le_refl _) rfl rfl rfl⟩

/-- C7 counterexample: validation does not reject a stall count above 50
nor a queue capacity above 2000 — a config with `nMax = 51` and
parameters with `qMax = 2001` both pass validation, contradicting the
claim that they are rejected. -/
theorem validate_accepts_large_counterexample :
    validateConfig configN51 = true ∧ validateStationParams paramsQ2001 = true := by
  constructor <;> decide

/-- C7 amended: validation runs before any simulation work and enforces
the lower bounds (`nMin, nMax ≥ 1`, `qMax ≥ 0`, …), but it imposes no
upper bound on the stall count or on the queue capacity: `nMax = 51`
(and far larger) and `qMax = 2001` (and far larger) are accepted, while
the lower-bound checks do reject `nMax = 0` and `qMax < 0`, and a
rejected config produces no results at all. -/
theorem validate_no_upper_bounds :
    validateConfig configN51 = true ∧
    validateStationParams paramsQ2001 = true ∧
    validateConfig { configN51 with nGrid := { nMin := 1, nMax := 1000000 } } = true ∧
    validateStationParams { paramsOk with qMax := 1000000000 } = true ∧
    validateConfig { configN51 with nGrid := { nMin := 0, nMax := 0 } } = false ∧
    validateStationParams { paramsOk with qMax := -1 } = false ∧
    (∀ (R : Type) (M : RNGModel R) (powQ : ℚ → ℚ → ℚ) (sqrtQ : ℚ → ℚ)
        (mkRNG : ℕ → R) (ps : StationParams) (cfg : GridSearchConfig)
        (onProgress : ℕ → ℕ → Unit),
      validateConfig cfg = false →
        gridSearch M powQ sqrtQ mkRNG ps cfg onProgress = none) := by
  refine ⟨by decide, by decide, by decide, by decide, by decide, by decide, ?_⟩
  intro R M powQ sqrtQ mkRNG ps cfg onProgress h
  rw [gridSearch, h]
  simp

/-- C8: the price grid is inclusive of both ends — `pMin + i*pStep` for
`i` from 0 to `round((pMax-pMin)/pStep)`, each value snapped to
millicent precision — and for `pMin = 0.45`, `pMax = 0.85`,
`pStep = 0.05` it enumerates exactly the 9 points 0.45, 0.50, …, 0.85. -/
theorem priceGrid_enumeration :
    priceGrid (45/100) (85/100) (5/100) =
      [45/100, 50/100, 55/100, 60/100, 65/100, 70/100, 75/100, 80/100, 85/100] ∧
    ∀ pMin pMax step : ℚ, 0 < step → pMin ≤ pMax →
      priceGrid pMin pMax step =
        (List.range ((⌊(pMax - pMin) / step + 1/2⌋).toNat + 1)).map
          (fun i => (jsRound ((pMin + i * step) * 1000) : ℚ) / 1000) := by
  have hgen : ∀ pMin pMax step : ℚ, 0 < step → pMin ≤ pMax →
      priceGrid pMin pMax step =
        (List.range ((⌊(pMax - pMin) / step + 1/2⌋).toNat + 1)).map
          (fun i => (jsRound ((pMin + i * step) * 1000) : ℚ) / 1000) := by
    intro pMin pMax step hstep hle
    have hq : (0 : ℚ) ≤ (pMax - pMin) / step :=
      div_nonneg (by linarith) (le_of_lt hstep)
    have hsteps : ¬ (⌊(pMax - pMin) / step + 1/2⌋ < 0) := by
      rw [not_lt]
      exact Int.floor_nonneg.2 (by linarith)
    simp only [priceGrid]
    rw [if_neg hsteps]
  refine ⟨?_, hgen⟩
  rw [hgen (45/100) (85/100) (5/100) (by norm_num) (by norm_num)]
  rw [show (⌊((85:ℚ)/100 - 45/100) / (5/100) + 1/2⌋) = 8 by norm_num]
  rw [show Int.toNat 8 + 1 = 9 from rfl]
  rw [show List.range 9 = [0, 1, 2, 3, 4, 5, 6, 7, 8] from by decide]
  simp only [List.map]
  norm_num [jsRound]

/-- C9: `percentile` computes the p-quantile by linear interpolation
between adjacent order statistics of the sorted sample — for every
non-empty list it returns `sorted[lo]*(1-w) + sorted[hi]*w` with
`idx = (n-1)*p`, `lo = ⌊idx⌋`, `hi = ⌈idx⌉`, `w = idx - lo` (when
`lo = hi` the weight is 0 and the two expressions agree) — and
`percentile [1,…,10] 0.95 = 9.55`. -/
theorem percentile_interpolation :
    (∀ (arr : List ℚ) (p : ℚ), arr ≠ [] →
      percentile arr p =
        (sortAsc arr).getD (⌊(((sortAsc arr).length : ℚ) - 1) * p⌋).toNat 0 *
            (1 - ((((sortAsc arr).length : ℚ) - 1) * p
              - ⌊(((sortAsc arr).length : ℚ) - 1) * p⌋)) +
          (sortAsc arr).getD (⌈(((sortAsc arr).length : ℚ) - 1) * p⌉).toNat 0 *
            ((((sortAsc arr).length : ℚ) - 1) * p
              - ⌊(((sortAsc arr).length : ℚ) - 1) * p⌋)) ∧
    percentile [1, 2, 3, 4, 5, 6, 7, 8, 9, 10] (95/100) = 191/20 := by
  have hgen : ∀ (arr : List ℚ) (p : ℚ), arr ≠ [] →
      percentile arr p =
        (sortAsc arr).getD (⌊(((sortAsc arr).length : ℚ) - 1) * p⌋).toNat 0 *
            (1 - ((((sortAsc arr).length : ℚ) - 1) * p
              - ⌊(((sortAsc arr).length : ℚ) - 1) * p⌋)) +
          (sortAsc arr).getD (⌈(((sortAsc arr).length : ℚ) - 1) * p⌉).toNat 0 *
            ((((sortAsc arr).length : ℚ) - 1) * p
              - ⌊(((sortAsc arr).length : ℚ) - 1) * p⌋) := by
    intro arr p hne
    have hlen : ¬ (arr.length = 0) := fun h => hne (List.length_eq_zero.1 h)
    rw [percentile, if_neg hlen]
    dsimp only
    split
    · next h =>
        have hle1 : (((sortAsc arr).length : ℚ) - 1) * p ≤
            ⌊(((sortAsc arr).length : ℚ) - 1) * p⌋ := by
          have hc := Int.le_ceil ((((sortAsc arr).length : ℚ) - 1) * p)
          rw [← h] at hc
          exact hc
        have hw : (((sortAsc arr).length : ℚ) - 1) * p
            - ⌊(((sortAsc arr).length : ℚ) - 1) * p⌋ = 0 := by
          have hf := Int.floor_le ((((sortAsc arr).length : ℚ) - 1) * p)
          linarith
        have hw2 : (((sortAsc arr).length : ℚ) - 1) * p
            - ⌈(((sortAsc arr).length : ℚ) - 1) * p⌉ = 0 := by
          rw [← h]; exact hw
        rw [h, hw2]
        ring
    · rfl
  refine ⟨hgen, ?_⟩
  have hne : ([1, 2, 3, 4, 5, 6, 7, 8, 9, 10] : List ℚ) ≠ [] := by decide
  rw [hgen _ _ hne]
  have hs : sortAsc [1, 2, 3, 4, 5, 6, 7, 8, 9, 10] = [(1:ℚ), 2, 3, 4, 5, 6, 7, 8, 9, 10] := by
    decide
  rw [hs]
  rw [show ((List.length [(1:ℚ), 2, 3, 4, 5, 6, 7, 8, 9, 10] : ℚ) - 1) * (95/100)
      = 171/20 by norm_num]
  rw [show (⌊(171/20 : ℚ)⌋) = 8 by norm_num,
    show (⌈(171/20 : ℚ)⌉) = 9 by rw [Int.ceil_eq_iff]; norm_num]
  rw [show ([(1:ℚ), 2, 3, 4, 5, 6, 7, 8, 9, 10].getD (Int.toNat 8) 0) = 9 from by decide,
    show ([(1:ℚ), 2, 3, 4, 5, 6, 7, 8, 9, 10].getD (Int.toNat 9) 0) = 10 from by decide]
  norm_num
